import Mathlib

/-!
Verification development for the SmartSubnetAi address-space core.

Shallow embedding of:
* src/subnet_calculator.py — SubnetCalculator.vlsm_allocation
* src/conflict_resolver.py — ConflictDetectionEngine (duplicate scan,
  unauthorized scan, quarantine, auto-remediation, full scan, report)
* src/database.py — the registry/conflict-log state the engine reads and writes

IPv4 addresses are modelled as natural numbers below 2^32 (the Python code
stores dotted-quad strings and converts through the ipaddress library; the
string/number conversion is a bijection and is kept numeric here).
-/

namespace SmartSubnet

/-- Numeric value of the dotted quad a.b.c.d. -/
def ipv4 (a b c d : Nat) : Nat := ((a * 256 + b) * 256 + c) * 256 + d

/-- Bit length of a natural number, modelling Python int.bit_length()
for arguments below 2^33 (every argument arising here is below 2^32). -/
def bitLen (n : Nat) : Nat := (List.range 33).countP (fun i => 2 ^ i ≤ n)

/-- Ceiling of log2, modelling math.ceil(math.log2 n) for n ≥ 1.
For n ≤ 2^32 the Python float64 computation returns this exact integer; for
larger n both values exceed 32, which is all the allocator ever inspects. -/
def clog2 (n : Nat) : Nat := (List.range 33).countP (fun i => 2 ^ i < n)

/-- An IPv4 network: base address plus prefix length, as built by
ipaddress.IPv4Network. -/
structure Net where
  addr : Nat
  prefixLen : Nat
deriving Repr, DecidableEq

/-- Number of addresses in the block (num_addresses). -/
def Net.size (n : Net) : Nat := 2 ^ (32 - n.prefixLen)

/-- Broadcast address of the block (broadcast_address). -/
def Net.broadcast (n : Net) : Nat := n.addr + n.size - 1

/-- Constructor modelling IPv4Network(s, strict=False): host bits of the
supplied base address are masked off. -/
def mkNet (a p : Nat) : Net := ⟨a - a % 2 ^ (32 - p), p⟩

/-- One entry of the list returned by vlsm_allocation (the dict built at
src/subnet_calculator.py lines 77-87, kept numerically: the string renderings
and the netmask/first/last fields are derived values of addr and prefixLen). -/
structure Alloc where
  subnetId : Nat
  requiredHosts : Int
  addr : Nat
  prefixLen : Nat
deriving Repr, DecidableEq

/-- The usable_hosts field: subnet.num_addresses - 2 (Python int arithmetic,
so it is -1 for a /32 and 0 for a /31). -/
def Alloc.usableHosts (a : Alloc) : Int := (2 ^ (32 - a.prefixLen) : Int) - 2

/-- Broadcast address of the granted block. -/
def Alloc.broadcast (a : Alloc) : Nat := a.addr + 2 ^ (32 - a.prefixLen) - 1

/-- Stable descending sort, modelling Python sorted(requirements, reverse=True)
(Python sort is stable; insertionSort with the reflexive relation keeps equal
elements in their original relative order). -/
def sortDesc (l : List Int) : List Int := List.insertionSort (· ≥ ·) l

/-- The for-loop of vlsm_allocation (src/subnet_calculator.py lines 59-109).
Each early return models a break:
* total ≤ 0: math.log2 raises ValueError, caught at line 107;
* 32 < hostBits: the prefix 32 - host_bits is negative, IPv4Network raises,
  caught at line 107;
* containment-check failure at lines 72-75;
* nextAddr exceeding the available broadcast is the else-break at line 105. -/
def vlsmGo (avail : Net) (idx : Nat) : List Int → List Alloc
  | [] => []
  | hosts :: rest =>
    let total : Int := hosts + 2
    if total ≤ 0 then []
    else
      let hostBits := clog2 total.toNat
      if 32 < hostBits then []
      else
        let p := 32 - hostBits
        let sub := mkNet avail.addr p
        if sub.addr < avail.addr ∨ avail.broadcast < sub.broadcast then []
        else
          let alloc : Alloc := ⟨idx, hosts, sub.addr, p⟩
          let nextAddr := sub.broadcast + 1
          if nextAddr ≤ avail.broadcast then
            let remaining := avail.broadcast - nextAddr + 1
            let availP := 32 - bitLen (remaining - 1)
            alloc :: vlsmGo (mkNet nextAddr availP) (idx + 1) rest
          else
            [alloc]

/-- SubnetCalculator(network a/p).vlsm_allocation(requirements): the parent is
built with strict=False in __init__ and the loop starts at its base address. -/
def vlsm_allocation (a p : Nat) (requirements : List Int) : List Alloc :=
  vlsmGo (mkNet a p) 1 (sortDesc requirements)

/-- Total address demand of a requirement list, summed 2^ceil(log2(h+2)). -/
def demandedAddresses (reqs : List Int) : Nat :=
  (reqs.map (fun h => 2 ^ clog2 (h + 2).toNat)).sum

/-- Two allocations occupy disjoint address ranges. -/
def Alloc.RangeDisjoint (x y : Alloc) : Prop :=
  x.broadcast < y.addr ∨ y.broadcast < x.addr

instance : DecidableRel Alloc.RangeDisjoint := fun x y => by
  unfold Alloc.RangeDisjoint; infer_instance

/-! Conflict engine: state of the external store (src/database.py) and the
operations of ConflictDetectionEngine (src/conflict_resolver.py). Every
engine operation is state-passing: it returns its result together with the
store state it leaves behind, so writes are explicit. -/

/-- Row of the network_devices table (src/database.py NetworkDevice).
The last_seen timestamp is not read by any engine operation and is omitted. -/
structure Device where
  id : Nat
  device_name : String
  ip_address : Nat
  device_type : String
  subnet : String
  mac_address : String
  status : String
deriving Repr, DecidableEq

/-- Row of the ip_conflicts table (src/database.py IPConflict). The two
timestamp columns are not read by any claim and are omitted;
resolution_method is nullable, hence an Option. -/
structure Conflict where
  id : Nat
  ip_address : Nat
  subnet : String
  conflict_type : String
  resolved : Bool
  resolution_method : Option String
deriving Repr, DecidableEq

/-- The store the engine reads and writes: device registry in insertion
order (the session query iteration order), conflict log, and the next
primary key the log will assign. -/
structure DbState where
  devices : List Device
  conflicts : List Conflict
  nextConflictId : Nat
deriving Repr, DecidableEq

/-- Query session.query(NetworkDevice).filter_by(status='active').all(). -/
def activeDevices (s : DbState) : List Device :=
  s.devices.filter (fun d => d.status == "active")

/-- One reported duplicate: the contested ip, the first holder seen
(device1) and the later device sharing it (device2). -/
structure DupPair where
  ip : Nat
  device1 : Device
  device2 : Device
deriving Repr, DecidableEq

/-- The loop of scan_for_duplicates (src/conflict_resolver.py lines 26-37):
registry models the ip_registry dict, keys are inserted only when absent. -/
def dupScanGo (registry : List (Nat × Device)) : List Device → List DupPair
  | [] => []
  | d :: ds =>
    match registry.find? (fun e => e.1 == d.ip_address) with
    | some e => ⟨d.ip_address, e.2, d⟩ :: dupScanGo registry ds
    | none => dupScanGo ((d.ip_address, d) :: registry) ds

/-- ConflictDetectionEngine.scan_for_duplicates: reads the active devices
and builds the duplicate list; it performs no write, so the state component
it returns is the state it was given. -/
def scan_for_duplicates (s : DbState) : List DupPair × DbState :=
  (dupScanGo [] (activeDevices s), s)

/-- A CIDR block as parsed from an authorized-subnet string. -/
structure Cidr where
  addr : Nat
  prefixLen : Nat
deriving Repr, DecidableEq

/-- Network address after strict=False parsing: supplied host bits are
masked off. -/
def Cidr.network (b : Cidr) : Nat := b.addr - b.addr % 2 ^ (32 - b.prefixLen)

/-- Broadcast address of the block. -/
def Cidr.broadcast (b : Cidr) : Nat := b.network + 2 ^ (32 - b.prefixLen) - 1

/-- Membership test device_ip in IPv4Network(subnet_str, strict=False):
numerically within network..broadcast, both ends included. -/
def Cidr.containsIp (b : Cidr) (ip : Nat) : Bool :=
  decide (b.network ≤ ip) && decide (ip ≤ b.broadcast)

/-- ConflictDetectionEngine.scan_for_unauthorized: an active device is
collected iff no authorized block contains its address; read-only. -/
def scan_for_unauthorized (blocks : List Cidr) (s : DbState) : List Device × DbState :=
  ((activeDevices s).filter (fun d => !(blocks.any (fun b => b.containsIp d.ip_address))),
   s)

/-- The engine's fixed quarantine zone (src/conflict_resolver.py line 13). -/
def quarantineSubnetStr : String := "192.168.255.0/24"

/-- The quarantine zone parsed: IPv4Network("192.168.255.0/24"). -/
def quarantineNet : Cidr := ⟨ipv4 192 168 255 0, 24⟩

/-- DatabaseManager.log_conflict: inserts an unresolved conflict row and
returns it. -/
def log_conflict (ip : Nat) (subnet ctype : String) (s : DbState) : Conflict × DbState :=
  let c : Conflict := ⟨s.nextConflictId, ip, subnet, ctype, false, none⟩
  (c, ⟨s.devices, s.conflicts ++ [c], s.nextConflictId + 1⟩)

/-- The query-first-then-mutate of DatabaseManager.resolve_conflict: update
the first row with the given id, report whether one was found. -/
def resolveGo (cid : Nat) (method : String) : List Conflict → List Conflict × Bool
  | [] => ([], false)
  | c :: cs =>
    if c.id == cid then
      ({ c with resolved := true, resolution_method := some method } :: cs, true)
    else
      let r := resolveGo cid method cs
      (c :: r.1, r.2)

/-- DatabaseManager.resolve_conflict. -/
def resolve_conflict (cid : Nat) (method : String) (s : DbState) : Bool × DbState :=
  let r := resolveGo cid method s.conflicts
  (r.2, ⟨s.devices, r.1, s.nextConflictId⟩)

/-- Dotted-quad rendering of an address, modelling str(IPv4Address). -/
def ipv4Str (ip : Nat) : String :=
  toString (ip / 2 ^ 24 % 256) ++ "." ++ toString (ip / 2 ^ 16 % 256) ++ "." ++
    toString (ip / 2 ^ 8 % 256) ++ "." ++ toString (ip % 256)

/-- ConflictDetectionEngine.quarantine_device: r models the value drawn by
random.randint(10, 100); the device row (identified by its primary key) gets
the new address, quarantined status and the quarantine subnet. -/
def quarantine_device (r : Nat) (devId : Nat) (s : DbState) : Nat × DbState :=
  let newIp := quarantineNet.network + r
  (newIp,
   ⟨s.devices.map (fun d =>
      if d.id == devId then
        { d with ip_address := newIp, status := "quarantined", subnet := quarantineSubnetStr }
      else d),
    s.conflicts, s.nextConflictId⟩)

/-- ConflictDetectionEngine.auto_remediate_duplicate: log, quarantine the
second holder, resolve with the method string naming the new address. -/
def auto_remediate_duplicate (r : Nat) (dup : DupPair) (s : DbState) : DbState :=
  let lc := log_conflict dup.ip dup.device1.subnet "duplicate" s
  let q := quarantine_device r dup.device2.id lc.2
  (resolve_conflict lc.1.id ("Auto-quarantine to " ++ ipv4Str q.1) q.2).2

/-- ConflictDetectionEngine.auto_remediate_unauthorized. -/
def auto_remediate_unauthorized (r : Nat) (dev : Device) (s : DbState) : DbState :=
  let lc := log_conflict dev.ip_address "N/A" "unauthorized" s
  let q := quarantine_device r dev.id lc.2
  (resolve_conflict lc.1.id ("Auto-quarantine to " ++ ipv4Str q.1) q.2).2

/-- Remediation loop over the duplicate pairs; rand k is the k-th value
drawn by random.randint(10,100), k the index of the next draw. -/
def remediateDupsGo (rand : Nat → Nat) (k : Nat) : List DupPair → DbState → Nat × DbState
  | [], s => (k, s)
  | d :: ds, s => remediateDupsGo rand (k + 1) ds (auto_remediate_duplicate (rand k) d s)

/-- Remediation loop over the unauthorized devices. -/
def remediateUnauthGo (rand : Nat → Nat) (k : Nat) : List Device → DbState → Nat × DbState
  | [], s => (k, s)
  | d :: ds, s => remediateUnauthGo rand (k + 1) ds (auto_remediate_unauthorized (rand k) d s)

/-- ConflictDetectionEngine.run_full_scan: duplicates are scanned and all
remediated first, then the unauthorized scan runs on the updated registry;
the returned count is the number of conflicts processed. -/
def run_full_scan (rand : Nat → Nat) (blocks : List Cidr) (s : DbState) : Nat × DbState :=
  let dups := (scan_for_duplicates s).1
  let st1 := remediateDupsGo rand 0 dups s
  let unauth := (scan_for_unauthorized blocks st1.2).1
  let st2 := remediateUnauthGo rand st1.1 unauth st1.2
  (dups.length + unauth.length, st2.2)

/-- The dict returned by get_conflict_report. The Python resolution rate is
a float; it is modelled exactly over the rationals. -/
structure Report where
  active_conflicts : Nat
  resolved_conflicts : Nat
  quarantined_devices : Nat
  resolution_rate : Rat
deriving Repr, DecidableEq

/-- ConflictDetectionEngine.get_conflict_report. -/
def get_conflict_report (s : DbState) : Report :=
  let active := (s.conflicts.filter (fun c => c.resolved == false)).length
  let resolved := (s.conflicts.filter (fun c => c.resolved == true)).length
  let quarantined := (s.devices.filter (fun d => d.status == "quarantined")).length
  ⟨active, resolved, quarantined,
   if active + resolved > 0 then (resolved : Rat) / ((active : Rat) + (resolved : Rat)) * 100
   else 0⟩

/-- List of addresses held by a device list. -/
def ipsOf (l : List Device) : List Nat := l.map (fun d => d.ip_address)

/-- The candidate block the loop body builds for the requirement at the head
of the remaining list: the available base address masked to the computed
prefix 32 - ceil(log2(hosts+2)). -/
def candidateNet (avail : Net) (hosts : Int) : Net :=
  mkNet avail.addr (32 - clog2 (hosts + 2).toNat)

/-- Helper for the ordering claim: the requiredHosts column of the produced
allocations is always an initial segment of the list the loop walks. -/
theorem vlsmGo_map_take (l : List Int) : ∀ (avail : Net) (idx : Nat),
    ∃ k, (vlsmGo avail idx l).map Alloc.requiredHosts = l.take k := by
  induction l with
  | nil => exact fun _ _ => ⟨0, rfl⟩
  | cons hosts rest ih =>
    intro avail idx
    simp only [vlsmGo]
    split
    · exact ⟨0, rfl⟩
    split
    · exact ⟨0, rfl⟩
    split
    · exact ⟨0, rfl⟩
    split
    · obtain ⟨k, hk⟩ := ih _ (idx + 1)
      exact ⟨k + 1, by simpa [List.take_succ_cons] using hk⟩
    · exact ⟨1, by simp⟩

/-! Claim theorems. -/

/-- C1 (code_bug run): on parent 10.0.0.0/24 with requirements [50, 50, 50]
the total demand 192 is within the parent capacity 256 and one allocation per
requirement is returned, yet the three granted subnets are all the same block
10.0.0.0/26, so they are not pairwise disjoint: the remaining-block
recomputation at src/subnet_calculator.py lines 97-103 masks the cursor back
to the parent base address. -/
theorem vlsm_overlap_within_capacity :
    demandedAddresses [50, 50, 50] ≤ (mkNet (ipv4 10 0 0 0) 24).size
    ∧ vlsm_allocation (ipv4 10 0 0 0) 24 [50, 50, 50] =
        [⟨1, 50, ipv4 10 0 0 0, 26⟩, ⟨2, 50, ipv4 10 0 0 0, 26⟩,
         ⟨3, 50, ipv4 10 0 0 0, 26⟩]
    ∧ ¬ (vlsm_allocation (ipv4 10 0 0 0) 24 [50, 50, 50]).Pairwise Alloc.RangeDisjoint := by
  refine ⟨by decide, by decide, ?_⟩
  decide

/-- C2 (code_bug run): a requirement of 0 hosts is not rejected; the
allocator silently grants the /31 block 10.0.0.0/31 with 0 usable hosts. -/
theorem vlsm_h0_silently_allocates :
    vlsm_allocation (ipv4 10 0 0 0) 24 [0] = [⟨1, 0, ipv4 10 0 0 0, 31⟩]
    ∧ (⟨1, 0, ipv4 10 0 0 0, 31⟩ : Alloc).usableHosts = 0 := by
  decide

/-- C3: whenever the candidate block built for the next requirement has an
upper bound beyond the parent broadcast (any bound at or above the available
broadcast), the loop allocates nothing for that requirement nor for any
after it, so the caller receives exactly the partial list accumulated before
this point; in particular parent 192.168.1.0/30 with requirements [50] gets
zero allocations for its one requirement. -/
theorem vlsm_exhaustion_stops_allocation :
    (∀ (parentBcast : Nat) (avail : Net) (idx : Nat) (hosts : Int) (rest : List Int),
        avail.broadcast ≤ parentBcast →
        parentBcast < (candidateNet avail hosts).broadcast →
        vlsmGo avail idx (hosts :: rest) = [])
    ∧ vlsm_allocation (ipv4 192 168 1 0) 30 [50] = []
    ∧ ([50] : List Int).length = 1 := by
  refine ⟨?_, by decide, rfl⟩
  intro parentBcast avail idx hosts rest hle hgt
  simp only [vlsmGo]
  split
  · rfl
  split
  · rfl
  split
  · rfl
  rename_i hne hbits hcont
  exfalso
  rw [not_or, not_lt] at hcont
  have hc : (candidateNet avail hosts).broadcast ≤ avail.broadcast := by
    simpa [candidateNet] using hcont.2
  omega

/-- C3 witness: the step property applied at the concrete /30 parent. -/
theorem vlsm_exhaustion_stops_allocation_witness :
    (mkNet (ipv4 192 168 1 0) 30).broadcast ≤ (mkNet (ipv4 192 168 1 0) 30).broadcast
    ∧ vlsmGo (mkNet (ipv4 192 168 1 0) 30) 1 [50] = [] :=
  ⟨le_refl _,
   vlsm_exhaustion_stops_allocation.1 (mkNet (ipv4 192 168 1 0) 30).broadcast
     (mkNet (ipv4 192 168 1 0) 30) 1 50 [] (le_refl _) (by decide)⟩

/-- C4: the allocator walks the requirements in stable descending order, so
the requiredHosts column of the result is an initial segment of the stable
descending sort of the input, is itself descending, and every returned
allocation carries a host count the caller requested; on parent 10.0.0.0/24
with requirements [50, 100, 25, 10] it returns 4 allocations in order
100, 50, 25, 10 whose first subnet is 10.0.0.0/25 with 126 usable hosts. -/
theorem vlsm_descending_order :
    (∀ (a p : Nat) (reqs : List Int),
        ∃ k, (vlsm_allocation a p reqs).map Alloc.requiredHosts = (sortDesc reqs).take k)
    ∧ (∀ (a p : Nat) (reqs : List Int),
        ((vlsm_allocation a p reqs).map Alloc.requiredHosts).Sorted (· ≥ ·))
    ∧ (∀ (a p : Nat) (reqs : List Int) (al : Alloc),
        al ∈ vlsm_allocation a p reqs → al.requiredHosts ∈ reqs)
    ∧ vlsm_allocation (ipv4 10 0 0 0) 24 [50, 100, 25, 10] =
        [⟨1, 100, ipv4 10 0 0 0, 25⟩, ⟨2, 50, ipv4 10 0 0 128, 26⟩,
         ⟨3, 25, ipv4 10 0 0 192, 27⟩, ⟨4, 10, ipv4 10 0 0 224, 28⟩]
    ∧ (⟨1, 100, ipv4 10 0 0 0, 25⟩ : Alloc).usableHosts = 126 := by
  have hpre : ∀ (a p : Nat) (reqs : List Int),
      ∃ k, (vlsm_allocation a p reqs).map Alloc.requiredHosts = (sortDesc reqs).take k :=
    fun a p reqs => vlsmGo_map_take (sortDesc reqs) (mkNet a p) 1
  refine ⟨hpre, ?_, ?_, by decide, by decide⟩
  · intro a p reqs
    obtain ⟨k, hk⟩ := hpre a p reqs
    rw [hk]
    exact ((List.sorted_insertionSort (· ≥ ·) reqs).sublist (List.take_sublist k _))
  · intro a p reqs al hal
    obtain ⟨k, hk⟩ := hpre a p reqs
    have hmem : al.requiredHosts ∈ (vlsm_allocation a p reqs).map Alloc.requiredHosts :=
      List.mem_map_of_mem _ hal
    rw [hk] at hmem
    exact (List.perm_insertionSort (· ≥ ·) reqs).subset (List.take_subset k _ hmem)

/-- C4 witness: the membership conjunct applied at the scenario input. -/
theorem vlsm_descending_order_witness :
    (⟨1, 100, ipv4 10 0 0 0, 25⟩ : Alloc).requiredHosts ∈ ([50, 100, 25, 10] : List Int) :=
  vlsm_descending_order.2.2.1 (ipv4 10 0 0 0) 24 [50, 100, 25, 10]
    ⟨1, 100, ipv4 10 0 0 0, 25⟩ (by decide)

/-- C10: the two detection operations return the store exactly as given:
neither the device registry nor the conflict log is changed by scanning. -/
theorem detection_scans_read_only :
    (∀ s : DbState, (scan_for_duplicates s).2 = s)
    ∧ (∀ (blocks : List Cidr) (s : DbState), (scan_for_unauthorized blocks s).2 = s) :=
  ⟨fun _ => rfl, fun _ _ => rfl⟩

/-- Helper: every pair emitted by the duplicate loop carries the contested
address of its second device, and its first device is the one the registry
recorded for that address, or, when the address was not yet registered, the
first device of the walked list holding it. -/
theorem dupScanGo_pairs : ∀ (l : List Device) (reg : List (Nat × Device)) (p : DupPair),
    p ∈ dupScanGo reg l →
    p.device2.ip_address = p.ip ∧
      ((reg.find? (fun e => e.1 == p.ip)).map Prod.snd = some p.device1 ∨
        (reg.find? (fun e => e.1 == p.ip) = none ∧
          l.find? (fun x => x.ip_address == p.ip) = some p.device1))
  | [], _, p => by simp [dupScanGo]
  | d :: ds, reg, p => by
    intro hp
    simp only [dupScanGo] at hp
    cases hfind : reg.find? (fun e => e.1 == d.ip_address) with
    | some e =>
      rw [hfind] at hp
      rcases List.mem_cons.mp hp with h | h
      · subst h
        exact ⟨rfl, Or.inl (by simp [hfind])⟩
      · obtain ⟨h2, hrest⟩ := dupScanGo_pairs ds reg p h
        refine ⟨h2, ?_⟩
        rcases hrest with hl | ⟨hn, hf⟩
        · exact Or.inl hl
        · have hne : ¬ d.ip_address = p.ip := by
            intro he
            rw [← he, hfind] at hn
            cases hn
          refine Or.inr ⟨hn, ?_⟩
          rw [List.find?_cons_of_neg _ (by simp [hne])]
          exact hf
    | none =>
      rw [hfind] at hp
      obtain ⟨h2, hrest⟩ := dupScanGo_pairs ds ((d.ip_address, d) :: reg) p hp
      refine ⟨h2, ?_⟩
      by_cases he : d.ip_address = p.ip
      · rcases hrest with hl | ⟨hn, _⟩
        · rw [List.find?_cons_of_pos _ (by simp [he])] at hl
          refine Or.inr ⟨by rw [← he]; exact hfind, ?_⟩
          rw [List.find?_cons_of_pos _ (by simp [he])]
          simpa using hl
        · rw [List.find?_cons_of_pos _ (by simp [he])] at hn
          cases hn
      · rcases hrest with hl | ⟨hn, hf⟩
        · rw [List.find?_cons_of_neg _ (by simp [he])] at hl
          exact Or.inl hl
        · rw [List.find?_cons_of_neg _ (by simp [he])] at hn
          refine Or.inr ⟨hn, ?_⟩
          rw [List.find?_cons_of_neg _ (by simp [he])]
          exact hf

/-- Helper: the number of pairs the duplicate loop emits, plus the number of
distinct addresses of the walked list not yet registered, is the length of
the walked list. -/
theorem dupScanGo_length : ∀ (l : List Device) (reg : List (Nat × Device)),
    (dupScanGo reg l).length +
      ((ipsOf l).toFinset \ (reg.map Prod.fst).toFinset).card = l.length
  | [], reg => by simp [dupScanGo, ipsOf]
  | d :: ds, reg => by
    cases hfind : reg.find? (fun e => e.1 == d.ip_address) with
    | some e =>
      have hmem : d.ip_address ∈ (reg.map Prod.fst).toFinset := by
        have hin := List.mem_of_find?_eq_some hfind
        have heq : e.1 = d.ip_address := by
          have hs := List.find?_some hfind
          exact beq_iff_eq.mp hs
        rw [List.mem_toFinset, List.mem_map]
        exact ⟨e, hin, heq⟩
      have hins : (ipsOf (d :: ds)).toFinset \ (reg.map Prod.fst).toFinset =
          (ipsOf ds).toFinset \ (reg.map Prod.fst).toFinset := by
        simp only [ipsOf, List.map_cons, List.toFinset_cons]
        exact Finset.insert_sdiff_of_mem _ hmem
      have ih := dupScanGo_length ds reg
      simp only [dupScanGo, hfind, List.length_cons, hins]
      omega
    | none =>
      have hnot : d.ip_address ∉ (reg.map Prod.fst).toFinset := by
        rw [List.mem_toFinset, List.mem_map]
        rintro ⟨e, hin, heq⟩
        have hcontra := List.find?_eq_none.mp hfind e hin
        simp [heq] at hcontra
      have ih := dupScanGo_length ds ((d.ip_address, d) :: reg)
      have hset : (ipsOf (d :: ds)).toFinset \ (reg.map Prod.fst).toFinset =
          insert d.ip_address
            ((ipsOf ds).toFinset \ (((d.ip_address, d) :: reg).map Prod.fst).toFinset) := by
        ext x
        simp only [ipsOf, List.map_cons, List.toFinset_cons, Finset.mem_sdiff,
          Finset.mem_insert]
        by_cases hxa : x = d.ip_address
        · subst hxa
          simp [hnot]
        · simp only [hxa, false_or]
      have hcard : ((ipsOf (d :: ds)).toFinset \ (reg.map Prod.fst).toFinset).card =
          ((ipsOf ds).toFinset \ (((d.ip_address, d) :: reg).map Prod.fst).toFinset).card + 1 := by
        rw [hset, Finset.card_insert_of_not_mem]
        simp
      simp only [dupScanGo, hfind, List.length_cons, hcard]
      omega

/-- Helper: a device list in which exactly one address is held twice and
every other address at most once produces exactly one duplicate pair. -/
theorem dupScan_one_duplicate (l : List Device) (x : Nat)
    (h2 : (ipsOf l).count x = 2)
    (h1 : ∀ y ∈ ipsOf l, y ≠ x → (ipsOf l).count y ≤ 1) :
    (dupScanGo [] l).length = 1 := by
  have hlen := dupScanGo_length l []
  simp only [List.map_nil, List.toFinset_nil, Finset.sdiff_empty] at hlen
  have hL : l.length = (ipsOf l).length := (List.length_map _ _).symm
  have hx : x ∈ (ipsOf l).toFinset := by
    rw [List.mem_toFinset]
    exact List.count_pos_iff.mp (by omega)
  have hsum : ∑ a ∈ (ipsOf l).toFinset, (ipsOf l).count a = (ipsOf l).length := by
    simp [Multiset.toFinset_sum_count_eq]
  have hsplit : (ipsOf l).count x + ∑ a ∈ (ipsOf l).toFinset.erase x, (ipsOf l).count a
      = ∑ a ∈ (ipsOf l).toFinset, (ipsOf l).count a :=
    Finset.add_sum_erase (ipsOf l).toFinset (fun a => (ipsOf l).count a) hx
  have herase : ∑ a ∈ (ipsOf l).toFinset.erase x, (ipsOf l).count a
      = ((ipsOf l).toFinset.erase x).card := by
    rw [Finset.card_eq_sum_ones]
    refine Finset.sum_congr rfl ?_
    intro y hy
    have hyx : y ≠ x := (Finset.mem_erase.mp hy).1
    have hymem : y ∈ ipsOf l := List.mem_toFinset.mp (Finset.mem_erase.mp hy).2
    have hup := h1 y hymem hyx
    have hlow : 0 < (ipsOf l).count y := List.count_pos_iff.mpr hymem
    omega
  have hce : ((ipsOf l).toFinset.erase x).card = (ipsOf l).toFinset.card - 1 :=
    Finset.card_erase_of_mem hx
  have hpos : 0 < (ipsOf l).toFinset.card := Finset.card_pos.mpr ⟨x, hx⟩
  omega

/-- C6: the duplicate scan ignores devices that are not active (removing any
non-active device from the registry leaves its output unchanged); every
reported pair couples a later active holder of an address with the first
active device encountered holding it; and a registry in which exactly one
address is held by two active devices, every other address by at most one,
yields exactly one pair. -/
theorem duplicate_scan_first_seen (s : DbState) :
    (∀ (pre post : List Device) (d : Device) (cs : List Conflict) (n : Nat),
        d.status ≠ "active" →
        (scan_for_duplicates ⟨pre ++ d :: post, cs, n⟩).1 =
          (scan_for_duplicates ⟨pre ++ post, cs, n⟩).1)
    ∧ (∀ p ∈ (scan_for_duplicates s).1,
        p.device2.ip_address = p.ip ∧
          (activeDevices s).find? (fun x => x.ip_address == p.ip) = some p.device1)
    ∧ (∀ x : Nat, (ipsOf (activeDevices s)).count x = 2 →
        (∀ y ∈ ipsOf (activeDevices s), y ≠ x → (ipsOf (activeDevices s)).count y ≤ 1) →
        ((scan_for_duplicates s).1).length = 1) := by
  refine ⟨?_, ?_, ?_⟩
  · intro pre post d cs n hd
    have hfd : (d.status == "active") = false := by
      simpa using hd
    simp [scan_for_duplicates, activeDevices, List.filter_append, List.filter_cons, hfd]
  · intro p hp
    obtain ⟨h2, hrest⟩ := dupScanGo_pairs (activeDevices s) [] p hp
    rcases hrest with hl | ⟨_, hf⟩
    · simp [List.find?] at hl
    · exact ⟨h2, hf⟩
  · intro x h2 h1
    exact dupScan_one_duplicate (activeDevices s) x h2 h1

/-- C6 witness: two active devices sharing 192.168.1.10 yield one pair. -/
theorem duplicate_scan_first_seen_witness :
    (ipsOf (activeDevices ⟨[⟨1, "Server-Web-01", ipv4 192 168 1 10, "server",
        "192.168.1.0/24", "00:11:22:33:44:01", "active"⟩,
      ⟨2, "Server-Web-02", ipv4 192 168 1 10, "server",
        "192.168.1.0/24", "00:11:22:33:44:03", "active"⟩], [], 1⟩)).count
        (ipv4 192 168 1 10) = 2
    ∧ ((scan_for_duplicates ⟨[⟨1, "Server-Web-01", ipv4 192 168 1 10, "server",
        "192.168.1.0/24", "00:11:22:33:44:01", "active"⟩,
      ⟨2, "Server-Web-02", ipv4 192 168 1 10, "server",
        "192.168.1.0/24", "00:11:22:33:44:03", "active"⟩], [], 1⟩).1).length = 1 :=
  ⟨by decide,
   (duplicate_scan_first_seen _).2.2 (ipv4 192 168 1 10) (by decide) (by decide)⟩

/-- C7: an active device is reported by the unauthorized scan exactly when
its address lies, numerically and inclusively of both the network and the
broadcast address after non-strict parsing, inside none of the authorized
blocks; consequently the scan reports nothing when every active device is
covered by some block. -/
theorem unauthorized_scan_characterization (blocks : List Cidr) (s : DbState) :
    (∀ d : Device, d ∈ activeDevices s →
        (d ∈ (scan_for_unauthorized blocks s).1 ↔
          ∀ b ∈ blocks, ¬ (b.network ≤ d.ip_address ∧ d.ip_address ≤ b.broadcast)))
    ∧ ((∀ d ∈ activeDevices s,
          ∃ b ∈ blocks, b.network ≤ d.ip_address ∧ d.ip_address ≤ b.broadcast) →
        (scan_for_unauthorized blocks s).1 = []) := by
  constructor
  · intro d hd
    simp [scan_for_unauthorized, List.mem_filter, hd, Cidr.containsIp,
      List.any_eq_true, not_and, not_le]
  · intro h
    simp only [scan_for_unauthorized, List.filter_eq_nil_iff]
    intro d hd
    obtain ⟨b, hb, hcov⟩ := h d hd
    simp only [Bool.not_eq_true', Bool.not_eq_false]
    exact List.any_eq_true.mpr ⟨b, hb, by simpa [Cidr.containsIp] using hcov⟩

/-- C7 witness: one active device at 192.168.1.10 against the block
192.168.1.0/24 gives an empty unauthorized scan. -/
theorem unauthorized_scan_characterization_witness :
    (scan_for_unauthorized [⟨ipv4 192 168 1 0, 24⟩]
      ⟨[⟨1, "Server-Web-01", ipv4 192 168 1 10, "server", "192.168.1.0/24",
         "00:11:22:33:44:01", "active"⟩], [], 1⟩).1 = [] :=
  (unauthorized_scan_characterization [⟨ipv4 192 168 1 0, 24⟩]
    ⟨[⟨1, "Server-Web-01", ipv4 192 168 1 10, "server", "192.168.1.0/24",
       "00:11:22:33:44:01", "active"⟩], [], 1⟩).2 (by decide)

/-- First device of the two-device duplicate scenario. -/
def scenarioDevice1 : Device :=
  ⟨1, "Server-Web-01", ipv4 192 168 1 10, "server", "192.168.1.0/24",
   "00:11:22:33:44:01", "active"⟩

/-- Second registered device of the duplicate scenario, same address. -/
def scenarioDevice2 : Device :=
  ⟨2, "Server-Web-02", ipv4 192 168 1 10, "server", "192.168.1.0/24",
   "00:11:22:33:44:03", "active"⟩

/-- Store holding exactly the two conflicting devices and an empty log. -/
def scenarioState : DbState := ⟨[scenarioDevice1, scenarioDevice2], [], 1⟩

/-- The single authorized block 192.168.1.0/24 of the scenario. -/
def scenarioBlocks : List Cidr := [⟨ipv4 192 168 1 0, 24⟩]

/-- The scenario full scan, r being the one random draw it consumes. -/
def scenarioRun (r : Nat) : Nat × DbState :=
  run_full_scan (fun _ => r) scenarioBlocks scenarioState

/-- C8: with two active devices registered at 192.168.1.10 and authorized
list [192.168.1.0/24], the full scan returns 1; the second-registered device
ends quarantined at the drawn offset (in [10,100]) inside the quarantine
block with its subnet set to that block; the first device is unchanged; and
the one logged duplicate conflict is resolved with the non-empty method
string naming the new address. -/
theorem full_scan_duplicate_scenario (r : Nat) (hlo : 10 ≤ r) (hhi : r ≤ 100) :
    (scenarioRun r).1 = 1
    ∧ (scenarioRun r).2.devices =
        [scenarioDevice1,
         { scenarioDevice2 with ip_address := ipv4 192 168 255 0 + r,
                                status := "quarantined", subnet := quarantineSubnetStr }]
    ∧ (scenarioRun r).2.conflicts =
        [⟨1, ipv4 192 168 1 10, "192.168.1.0/24", "duplicate", true,
          some ("Auto-quarantine to " ++ ipv4Str (ipv4 192 168 255 0 + r))⟩]
    ∧ quarantineNet.network + 10 ≤ ipv4 192 168 255 0 + r
    ∧ ipv4 192 168 255 0 + r ≤ quarantineNet.network + 100
    ∧ quarantineNet.containsIp (ipv4 192 168 255 0 + r) = true
    ∧ "Auto-quarantine to " ++ ipv4Str (ipv4 192 168 255 0 + r) ≠ "" := by
  interval_cases r <;> exact (by decide)

/-- C8 witness: the scenario at the concrete draw 42. -/
theorem full_scan_duplicate_scenario_witness :
    10 ≤ 42 ∧ (scenarioRun 42).1 = 1 :=
  ⟨by decide, (full_scan_duplicate_scenario 42 (by decide) (by decide)).1⟩

/-- C9: the report's resolution rate is resolved/(active+resolved)*100, it is
exactly 0 when there are no conflicts at all, and it always lies between 0
and 100 (the rational model of the Python float expression is total, so no
division error can occur). -/
theorem conflict_report_resolution_rate (s : DbState) (a r : Nat)
    (ha : a = (s.conflicts.filter (fun c => c.resolved == false)).length)
    (hr : r = (s.conflicts.filter (fun c => c.resolved == true)).length) :
    ((get_conflict_report s).resolution_rate =
        if 0 < a + r then (r : Rat) / ((a : Rat) + (r : Rat)) * 100 else 0)
    ∧ (a + r = 0 → (get_conflict_report s).resolution_rate = 0)
    ∧ 0 ≤ (get_conflict_report s).resolution_rate
    ∧ (get_conflict_report s).resolution_rate ≤ 100 := by
  subst ha hr
  simp only [get_conflict_report]
  set a := (s.conflicts.filter (fun c => c.resolved == false)).length with hadef
  set r := (s.conflicts.filter (fun c => c.resolved == true)).length with hrdef
  refine ⟨trivial, ?_, ?_, ?_⟩
  · intro h0
    simp [h0]
  · by_cases h : 0 < a + r
    · simp only [h, if_pos]
      positivity
    · simp [h]
  · by_cases h : 0 < a + r
    · simp only [h, if_pos]
      have hden : (0 : Rat) < (a : Rat) + (r : Rat) := by
        have : (0 : Rat) < ((a + r : Nat) : Rat) := by
          exact_mod_cast h
        push_cast at this
        linarith
      have hfrac : (r : Rat) / ((a : Rat) + (r : Rat)) ≤ 1 := by
        rw [div_le_one hden]
        have : (r : Rat) ≤ (a : Rat) + (r : Rat) := by
          have : (0 : Rat) ≤ (a : Rat) := by positivity
          linarith
        exact this
      calc (r : Rat) / ((a : Rat) + (r : Rat)) * 100 ≤ 1 * 100 := by
            exact mul_le_mul_of_nonneg_right hfrac (by norm_num)
        _ = 100 := by norm_num
    · simp [h]

/-- C9 witness: an empty conflict log reports rate exactly 0. -/
theorem conflict_report_resolution_rate_witness :
    (get_conflict_report ⟨[], [], 1⟩).resolution_rate = 0 :=
  (conflict_report_resolution_rate ⟨[], [], 1⟩ 0 0 rfl rfl).2.1 rfl

end SmartSubnet
